import Mathlib

/-!
Verification development for the PSF-beads analysis pipeline of
`microscope-metrics` (`src/microscopemetrics/samples/psf_beads.py`).

The Python functions are shallowly embedded: intensities are rationals,
pixel coordinates are naturals, numpy reductions (`max`, `median`,
`argmax`) and Python container semantics (sets, dicts, slices, `zip`)
are modelled explicitly.  External library calls (`skimage`'s
`peak_local_max` and `gaussian`, `scipy`-based `fit_airy`) are
abstracted as oracle parameters; the parts of their behaviour the
analysed code relies on (border exclusion) are modelled explicitly and
documented where they appear.
-/

-- The Batteries rational primitives are `@[irreducible]`; the concrete
-- evaluations below need them to unfold.
attribute [local semireducible] Rat.mul Rat.inv Rat.add Rat.sub

set_option maxRecDepth 16000

namespace PsfBeads

/-- A voxel coordinate `(z, y, x)` as returned by the peak finder. -/
structure Pos3 where
  z : Nat
  y : Nat
  x : Nat
deriving DecidableEq

/-- A 3D channel volume indexed as `[z][y][x]`, intensities as rationals. -/
abbrev Volume := List (List (List ℚ))

/-- The floor of a rational, computed by flooring division of numerator by
denominator (kernel-reducible, unlike the `FloorRing` instance). -/
def ratFloor (q : ℚ) : ℤ :=
  q.num.fdiv (q.den : ℤ)

/-- Python `int(q)` on a float: truncation toward zero. -/
def pyInt (q : ℚ) : ℤ :=
  if q < 0 then -(ratFloor (-q)) else ratFloor q

/-- Python float floor division `a // b`. -/
def pyFloorDiv (a b : ℚ) : ℚ :=
  (ratFloor (a / b) : ℚ)

/-- Truthiness of a Python float: zero is falsy. -/
def truthyQ (q : ℚ) : Bool :=
  decide (q ≠ 0)

/-- Truthiness of an optional Python float (`None` and `0.0` are falsy). -/
def truthyOpt : Option ℚ → Bool
  | none => false
  | some q => truthyQ q

/-- `all(...)` over a 3-tuple of Python floats. -/
def truthy3 (s : ℚ × ℚ × ℚ) : Bool :=
  truthyQ s.1 && truthyQ s.2.1 && truthyQ s.2.2

/-- `numpy.max` over a 1D array; junk value `0` on the empty list (numpy raises). -/
def npMax (l : List ℚ) : ℚ :=
  l.foldl max (l.headD 0)

/-- `numpy.argmax` over a 1D array: index of the first maximal entry. -/
def npArgmax (l : List ℚ) : ℕ :=
  (l.enum.foldl (fun best iv => if iv.2 > best.2 then iv else best) (0, l.headD 0)).1

/-- `numpy.median`: middle element of the sorted data, or the mean of the two
middle elements for even length; junk value `0` on the empty list. -/
def npMedian (l : List ℚ) : ℚ :=
  let s := l.insertionSort (· ≤ ·)
  let n := l.length
  if n = 0 then 0
  else if n % 2 = 1 then s.getD (n / 2) 0
  else (s.getD (n / 2 - 1) 0 + s.getD (n / 2) 0) / 2

/-- Normalisation of one endpoint of a Python slice `l[a:b]` for a list of
length `n`: negative indices count from the end, then the result is clamped
to `[0, n]`. -/
def pySliceIdx (n : ℕ) (i : ℤ) : ℕ :=
  (max 0 (min (if i < 0 then i + n else i) (n : ℤ))).toNat

/-- Python slice `l[a:b]` (step 1). -/
def pySlice {α : Type} (l : List α) (a b : ℤ) : List α :=
  (l.take (pySliceIdx l.length b)).drop (pySliceIdx l.length a)

/-- `numpy.clip(v, a_min=0, a_max=None)` on a 3D volume. -/
def npClip0 (v : Volume) : Volume :=
  v.map (fun sl => sl.map (fun row => row.map (fun q => max 0 q)))

/-- Python set difference on coordinate lists (the lists stand for the sets of
their elements). -/
def pySetDiff (l1 l2 : List Pos3) : List Pos3 :=
  l1.filter (fun p => decide (p ∉ l2))

/-- Python set intersection on coordinate lists. -/
def pySetInter (l1 l2 : List Pos3) : List Pos3 :=
  l1.filter (fun p => decide (p ∈ l2))

/-- Python `dict` insertion `d[k] = v`: overwrite in place if the key exists,
else append. -/
def dictInsert {α : Type} (d : List (String × α)) (k : String) (v : α) :
    List (String × α) :=
  if d.any (fun e => e.1 = k) then
    d.map (fun e => if e.1 = k then (k, v) else e)
  else
    d ++ [(k, v)]

/-- Python `zip(*xss)`: transpose truncated to the shortest row. -/
def pyZipStar {α : Type} (xss : List (List α)) : List (List α) :=
  match (xss.map List.length).min? with
  | none => []
  | some m => (List.range m).map (fun c => xss.filterMap (fun xs => xs[c]?))

/-! ## Bead detector (`_find_beads`) -/

/-- The half-width `int(min_distance // 2)` used by `_find_beads` both as the
lateral `exclude_border` width and as the crop half-width. -/
def halfMinDistance (min_distance : ℚ) : ℤ :=
  pyInt (pyFloorDiv min_distance 2)

/-- Modelled from the spec: border exclusion performed inside the external
`skimage.feature.peak_local_max` when called with
`exclude_border=(1, k, k)` (the function itself is not part of this
repository).  Peaks inside the first/last z plane, or within `k` pixels of a
lateral border, are never returned; the remaining peak-selection behaviour
(thresholding, minimum spacing) stays abstract in the raw input list. -/
def excludeBorderFilter (zdim ydim xdim : ℕ) (k : ℤ) (peaks : List Pos3) :
    List Pos3 :=
  peaks.filter (fun p =>
    decide (1 ≤ (p.z : ℤ) ∧ (p.z : ℤ) + 1 < (zdim : ℤ) ∧
      k ≤ (p.y : ℤ) ∧ (p.y : ℤ) + k < (ydim : ℤ) ∧
      k ≤ (p.x : ℤ) ∧ (p.x : ℤ) + k < (xdim : ℤ)))

/-- The structural peak classification of `_find_beads`
(`psf_beads.py:260-286`), stated over the three peak lists returned by the
external peak finder.  `positions_all` is the unconstrained peak set,
`positions_proximity_filtered` the distance-filtered one, and
`positions_proximity_edge_raw` the distance-filtered peaks of the
border-masked call (the guaranteed border exclusion is applied via
`excludeBorderFilter`).  Python `set`s are modelled as deduplicated lists. -/
structure BeadClassification where
  valid_positions : List Pos3
  discarded_proximity : List Pos3
  discarded_edge : List Pos3

def findBeadsClassify (zdim ydim xdim : ℕ) (min_distance : ℚ)
    (positions_all positions_proximity_filtered
      positions_proximity_edge_raw : List Pos3) : BeadClassification :=
  let k := halfMinDistance min_distance
  let positions_proximity_edge_filtered :=
    excludeBorderFilter zdim ydim xdim k positions_proximity_edge_raw
  let positions_all_set := positions_all.dedup
  let positions_proximity_filtered_set := positions_proximity_filtered.dedup
  let positions_proximity_edge_filtered_set :=
    positions_proximity_edge_filtered.dedup
  let positions_edge_filtered_set :=
    pySetInter positions_proximity_filtered_set
      positions_proximity_edge_filtered_set
  { valid_positions := positions_proximity_edge_filtered_set
    discarded_proximity :=
      pySetDiff positions_all_set positions_proximity_filtered_set
    discarded_edge := pySetDiff positions_all_set positions_edge_filtered_set }

/-- The bead crop `channel[:, y-k : y+k, x-k : x+k]` of `_find_beads`
(`psf_beads.py:288-295`), with Python slice semantics and
`k = int(min_distance // 2)`. -/
def cropBead (channel : Volume) (k : ℤ) (p : Pos3) : Volume :=
  channel.map (fun zsl =>
    (pySlice zsl ((p.y : ℤ) - k) ((p.y : ℤ) + k)).map (fun row =>
      pySlice row ((p.x : ℤ) - k) ((p.x : ℤ) + k)))

/-- The crop as §4.1 of the spec describes it: a window of half-width
`min_distance/2` around the centroid in *each* dimension, clipped (not
padded) to the volume bounds.  Used only to compare the spec's wording with
the code's `cropBead`. -/
def clampSlice {α : Type} (l : List α) (a b : ℤ) : List α :=
  (l.take (min b (l.length : ℤ)).toNat).drop (max a 0).toNat

def cropBeadSpec (channel : Volume) (k : ℤ) (p : Pos3) : Volume :=
  (clampSlice channel ((p.z : ℤ) - k) ((p.z : ℤ) + k)).map (fun zsl =>
    (clampSlice zsl ((p.y : ℤ) - k) ((p.y : ℤ) + k)).map (fun row =>
      clampSlice row ((p.x : ℤ) - k) ((p.x : ℤ) + k)))

/-- Dimensions of a (rectangular) volume. -/
def volZdim (v : Volume) : ℕ := v.length

def volYdim (v : Volume) : ℕ := (v.headD []).length

def volXdim (v : Volume) : ℕ := ((v.headD []).headD []).length

/-- The external functions used by the pipeline, abstracted as oracles:
`skimage.filters.gaussian`, the three `skimage.feature.peak_local_max`
calls (distinguished by their arguments: none, `min_distance`, and
`min_distance` plus `exclude_border` — the latter's border guarantee is
applied explicitly through `excludeBorderFilter`), and the
`fit_airy` curve fitter from `microscopemetrics.utilities.utilities`
(not included in the sources; per the spec it returns the fitted curve,
a residual sum of squares, the FWHM and the fitted centre, or raises a
`FittingError`). -/
structure FitResult where
  fitted_profile : List ℚ
  rss : ℚ
  fwhm : ℚ
  center_pos : ℚ

structure Externals where
  gaussian_filter : (ℚ × ℚ × ℚ) → Volume → Volume
  plm_all : Volume → List Pos3
  plm_prox : Volume → ℤ → List Pos3
  plm_prox_edge : Volume → ℤ → ℤ → List Pos3
  fit_airy : List ℚ → Except String FitResult

/-- Full result of `_find_beads`: the classification plus the bead crops
(cropped from the smoothed channel when smoothing is enabled). -/
structure FindBeadsOut where
  bead_images : List Volume
  valid_positions : List Pos3
  discarded_proximity : List Pos3
  discarded_edge : List Pos3

def findBeads (ext : Externals) (channel : Volume) (sigma : ℚ × ℚ × ℚ)
    (min_distance : ℚ) : FindBeadsOut :=
  let channel := if truthy3 sigma then ext.gaussian_filter sigma channel
    else channel
  let k := halfMinDistance min_distance
  let cls := findBeadsClassify (volZdim channel) (volYdim channel)
    (volXdim channel) min_distance
    (ext.plm_all channel)
    (ext.plm_prox channel (pyInt min_distance))
    (ext.plm_prox_edge channel (pyInt min_distance) k)
  { bead_images := cls.valid_positions.map (cropBead channel k)
    valid_positions := cls.valid_positions
    discarded_proximity := cls.discarded_proximity
    discarded_edge := cls.discarded_edge }

/-! ## Bead processor (`_process_bead`) -/

/-- `numpy.max(bead, axis=(1,2))`: per-z-plane maximum. -/
def zMaxProj (bead : Volume) : List ℚ :=
  bead.map (fun sl => npMax sl.flatten)

/-- `numpy.max(bead, axis=(0,2))`: per-y maximum. -/
def yMaxProj (bead : Volume) : List ℚ :=
  (List.range (volYdim bead)).map (fun y =>
    npMax (bead.map (fun sl => npMax (sl.getD y []))))

/-- `numpy.max(bead, axis=(0,1))`: per-x maximum. -/
def xMaxProj (bead : Volume) : List ℚ :=
  (List.range (volXdim bead)).map (fun x =>
    npMax (bead.map (fun sl => npMax (sl.map (fun row => row.getD x 0)))))

/-- The `considered_axial_edge` expression of `_process_bead`
(`psf_beads.py:218-220`): note that `z_profile[0]` and `z_profile[-1]` are
the first and last *intensity samples* of the z profile. -/
def consideredAxialEdgeCode (z_profile : List ℚ) (z_fwhm z_center_pos : ℚ) :
    Bool :=
  decide (z_center_pos - z_profile.headD 0 < z_fwhm * 4) ||
    decide (z_profile.getLastD 0 - z_center_pos < z_fwhm * 4)

/-- The axial-edge flag as §4.3 of the spec describes it: the fitted z-centre
lies within `4 * FWHM_z` of either boundary *index* of the z profile
(index `0` or index `len - 1`).  Used only to compare the spec's wording
with the code's `consideredAxialEdgeCode`. -/
def consideredAxialEdgeSpec (z_profile : List ℚ) (z_fwhm z_center_pos : ℚ) :
    Bool :=
  decide (z_center_pos - 0 < z_fwhm * 4) ||
    decide (((z_profile.length : ℚ) - 1) - z_center_pos < z_fwhm * 4)

/-- The z profile of `_process_bead`: the intensity column through the
lateral focus point `(y_focus, x_focus)`. -/
def zProfileOf (bead : Volume) : List ℚ :=
  let y_focus := npArgmax (yMaxProj bead)
  let x_focus := npArgmax (xMaxProj bead)
  bead.map (fun sl => (sl.getD y_focus []).getD x_focus 0)

/-- The y profile of `_process_bead`. -/
def yProfileOf (bead : Volume) : List ℚ :=
  let z_focus := npArgmax (zMaxProj bead)
  let x_focus := npArgmax (xMaxProj bead)
  (bead.getD z_focus []).map (fun row => row.getD x_focus 0)

/-- The x profile of `_process_bead`. -/
def xProfileOf (bead : Volume) : List ℚ :=
  let z_focus := npArgmax (zMaxProj bead)
  let y_focus := npArgmax (yMaxProj bead)
  (bead.getD z_focus []).getD y_focus []

structure BeadResult where
  profiles : List ℚ × List ℚ × List ℚ
  fitted_profiles : List ℚ × List ℚ × List ℚ
  rss : ℚ × ℚ × ℚ
  fwhm : ℚ × ℚ × ℚ
  fwhm_micron : Option ℚ × Option ℚ × Option ℚ
  considered_axial_edge : Bool

/-- `_process_bead` (`psf_beads.py:189-229`): per-axis focus location,
profile extraction, the three curve fits (`fit_airy` abstracted as an
oracle, failures propagate as `FittingError`), physical-unit conversion and
the axial-edge flag. -/
def processBead (fit : List ℚ → Except String FitResult) (bead : Volume)
    (voxel_size_micron : Option ℚ × Option ℚ × Option ℚ) :
    Except String BeadResult := do
  let z_profile := zProfileOf bead
  let y_profile := yProfileOf bead
  let x_profile := xProfileOf bead
  let zfit ← fit z_profile
  let yfit ← fit y_profile
  let xfit ← fit x_profile
  let fwhm_micron :=
    if truthyOpt voxel_size_micron.1 && truthyOpt voxel_size_micron.2.1 &&
        truthyOpt voxel_size_micron.2.2 then
      (some (zfit.fwhm * voxel_size_micron.1.getD 0),
        some (yfit.fwhm * voxel_size_micron.2.1.getD 0),
        some (xfit.fwhm * voxel_size_micron.2.2.getD 0))
    else (none, none, none)
  pure
    { profiles := (z_profile, y_profile, x_profile)
      fitted_profiles :=
        (zfit.fitted_profile, yfit.fitted_profile, xfit.fitted_profile)
      rss := (zfit.rss, yfit.rss, xfit.rss)
      fwhm := (zfit.fwhm, yfit.fwhm, xfit.fwhm)
      fwhm_micron := fwhm_micron
      considered_axial_edge :=
        consideredAxialEdgeCode z_profile zfit.fwhm zfit.center_pos }

/-! ## Channel and image processing -/

structure ChannelOutput where
  beads : List Volume
  bead_positions : List Pos3
  bead_profiles : List (List ℚ × List ℚ × List ℚ)
  bead_fitted_profiles : List (List ℚ × List ℚ × List ℚ)
  bead_rsss : List (ℚ × ℚ × ℚ)
  bead_fwhms : List (ℚ × ℚ × ℚ)
  bead_fwhms_micron : List (Option ℚ × Option ℚ × Option ℚ)
  discarded_self_proximity : List Pos3
  discarded_lateral_edge : List Pos3
  considered_axial_edge : List Bool

/-- `_process_channel` (`psf_beads.py:304-356`): find beads, process each
crop; a `FittingError` on any bead is re-raised (modelled by the `Except`
short-circuit of `mapM`).  The source's `snr_threshold` and
`fitting_rss_threshold` parameters are unused inside the function and are
omitted here. -/
def processChannel (ext : Externals) (channel : Volume) (sigma : ℚ × ℚ × ℚ)
    (min_bead_distance : ℚ)
    (voxel_size_micron : Option ℚ × Option ℚ × Option ℚ) :
    Except String ChannelOutput := do
  let fb := findBeads ext channel sigma min_bead_distance
  let results ← fb.bead_images.mapM (fun bead =>
    processBead ext.fit_airy bead voxel_size_micron)
  pure
    { beads := fb.bead_images
      bead_positions := fb.valid_positions
      bead_profiles := results.map (·.profiles)
      bead_fitted_profiles := results.map (·.fitted_profiles)
      bead_rsss := results.map (·.rss)
      bead_fwhms := results.map (·.fwhm)
      bead_fwhms_micron := results.map (·.fwhm_micron)
      discarded_self_proximity := fb.discarded_proximity
      discarded_lateral_edge := fb.discarded_edge
      considered_axial_edge := results.map (·.considered_axial_edge) }

/-- An input image: its `name`, the numpy `array_data.shape`, the pixel data
stored per channel and time point (`channels[c][t]` is the 3D volume of
channel `c` at time `t`, i.e. `array_data[t, ..., c]`), and the voxel sizes. -/
structure MMImage where
  name : String
  shape : List ℕ
  channels : List (List Volume)
  voxel_size_z_micron : Option ℚ
  voxel_size_y_micron : Option ℚ
  voxel_size_x_micron : Option ℚ

/-- `image.array_data.shape[-1]`, the number of channels iterated over. -/
def nrChannelsOf (img : MMImage) : ℕ :=
  img.shape.getLastD 0

/-- `image.array_data[0, ..., c]`: the first time point of channel `c`. -/
def channelVolume (img : MMImage) (c : ℕ) : Volume :=
  (img.channels.getD c []).headD []

/-- `image.array_data[..., c]` flattened: every pixel of channel `c` over all
time points, as consumed by the saturation check. -/
def channelAllPixels (img : MMImage) (c : ℕ) : List ℚ :=
  ((img.channels.getD c []).map (fun v => (v.map List.flatten).flatten)).flatten

structure ImageOutput where
  channels : List ChannelOutput

/-- `_process_image` (`psf_beads.py:359-429`): drop the time dimension, clip
negatives to zero, and process each channel in order. -/
def processImage (ext : Externals) (img : MMImage) (sigma : ℚ × ℚ × ℚ)
    (min_bead_distance : ℚ) : Except String ImageOutput := do
  let chOuts ← (List.range (nrChannelsOf img)).mapM (fun ch =>
    processChannel ext (npClip0 (channelVolume img ch)) sigma
      min_bead_distance
      (img.voxel_size_z_micron, img.voxel_size_y_micron,
        img.voxel_size_x_micron))
  pure ⟨chOuts⟩

/-! ## Outlier classifier (`_calculate_bead_intensity_outliers`) -/

/-- `bead.max()` on a 3D bead crop. -/
def beadMax (bead : Volume) : ℚ :=
  npMax (bead.map (fun sl => sl.map npMax)).flatten

/-- The dataset-wide bead-crop dictionary: one entry per image label, holding
the per-channel lists of bead crops (insertion order preserved). -/
abbrev BeadCrops := List (String × List (List Volume))

/-- The pooled list of per-bead maximum intensities,
`psf_beads.py:28-33`. -/
def beadMaxIntensities (bead_crops : BeadCrops) : List ℚ :=
  ((bead_crops.map (fun e => e.2.map (fun ch => ch.map beadMax))).map
    List.flatten).flatten

/-- The constant `0.6745` of the robust z-score, as an exact rational. -/
def robustFactor : ℚ := 6745 / 10000

/-- `_calculate_bead_intensity_outliers` (`psf_beads.py:22-60`): the robust
z-score `0.6745 * (x - median) / MAD` of every bead's maximum intensity and
the outlier flag, with the branch on the pooled sample size taken verbatim
from the source.  (Over `ℚ` a division by a zero MAD silently yields `0`;
the floating-point original has no guard either and produces a non-finite
score there.) -/
def calculateBeadIntensityOutliers (bead_crops : BeadCrops)
    (robust_z_score_threshold : ℚ) :
    List (String × List (List (ℚ × Bool))) :=
  let bead_max_intensities := beadMaxIntensities bead_crops
  let n := bead_max_intensities.length
  let median := npMedian bead_max_intensities
  let mad := npMedian (bead_max_intensities.map (fun x => |x - median|))
  bead_crops.map (fun e =>
    (e.1, e.2.map (fun ch => ch.map (fun bead =>
      if n = 1 then ((0 : ℚ), false)
      else if 1 < n ∧ n < 6 then
        (robustFactor * (beadMax bead - median) / mad, false)
      else
        let s := robustFactor * (beadMax bead - median) / mad
        (s, decide (|s| > robust_z_score_threshold))))))

/-! ## Key measurement counts (`_generate_key_values`) -/

/-- The per-channel discarded-bead counts of `_generate_key_values`
(`psf_beads.py:71-76`):
`[sum(len(pos) for pos in ch) for ch in zip(*dict.values())]`. -/
def nrDiscardedPerChannel (d : List (String × List (List Pos3))) : List ℕ :=
  (pyZipStar (d.map (fun e => e.2))).map (fun ch =>
    (ch.map List.length).sum)

/-- The `channel_nr` column of the bead-properties table, as built by the
third loop of `analyse_psf_beads` (`psf_beads.py:695-724`): for each image
(with its channel count) and each channel, one row per bead crop. -/
def beadPropertiesChannelCol {α : Type}
    (per_image : List (ℕ × List (List α))) : List ℕ :=
  per_image.flatMap (fun e =>
    (List.range e.1).flatMap (fun ch =>
      List.replicate ((e.2.getD ch []).length) ch))

/-- `df.groupby("channel_nr").size()`: for each key present, in increasing
order, the number of rows carrying it (modelled pandas behaviour). -/
def groupbySizes (keys : List ℕ) : List (ℕ × ℕ) :=
  (keys.toFinset.sort (· ≤ ·)).map (fun k => (k, keys.count k))

/-! ## Top-level analysis (`analyse_psf_beads`) -/

/-- Modelled from the spec: `is_saturated` lives in
`microscopemetrics.utilities.utilities`, which is not part of the provided
sources.  Per §4.6 of the spec it checks whether the fraction of pixels at or
above the representable maximum for the configured bit depth exceeds the
saturation threshold. -/
def isSaturated (channel : List ℚ) (threshold : ℚ)
    (detector_bit_depth : ℕ) : Bool :=
  let max_value : ℚ := ((2 ^ detector_bit_depth : ℕ) : ℚ) - 1
  let sat_fraction : ℚ :=
    ((channel.filter (fun p => decide (max_value ≤ p))).length : ℚ) /
      (channel.length : ℚ)
  decide (sat_fraction > threshold)

structure PSFBeadsInput where
  psf_beads_images : List MMImage
  bit_depth : ℕ
  saturation_threshold : ℚ
  min_lateral_distance_factor : ℚ
  snr_threshold : ℚ
  fitting_rss_threshold : ℚ
  intensity_robust_z_score_threshold : ℚ
  sigma_z : ℚ
  sigma_y : ℚ
  sigma_x : ℚ

structure PSFBeadsDataset where
  input : PSFBeadsInput

/-- `_estimate_min_bead_distance` (`psf_beads.py:432-434`). -/
def estimateMinBeadDistance (dataset : PSFBeadsDataset) : ℚ :=
  dataset.input.min_lateral_distance_factor

/-- The saturated-channel list collected for one image
(`psf_beads.py:595-602`). -/
def saturatedChannelsOf (threshold : ℚ) (bit_depth : ℕ) (img : MMImage) :
    List ℕ :=
  (List.range (nrChannelsOf img)).filter (fun c =>
    isSaturated (channelAllPixels img c) threshold bit_depth)

/-- The first loop of `analyse_psf_beads` (`psf_beads.py:573-602`): per
image, check the array is 5-dimensional (`return False` otherwise) and
collect the saturated channels into a dict keyed by image name.  `none`
models the early `return False`. -/
def preparePhase (threshold : ℚ) (bit_depth : ℕ)
    (acc : List (String × List ℕ)) :
    List MMImage → Option (List (String × List ℕ))
  | [] => some acc
  | img :: rest =>
    if img.shape.length ≠ 5 then none
    else
      preparePhase threshold bit_depth
        (dictInsert acc img.name (saturatedChannelsOf threshold bit_depth img))
        rest

/-- The observable outcome of `analyse_psf_beads`: the boolean-style failure
`return False`, a raised `SaturationError` (carrying the saturated-channel
dict its message prints), a propagated `FittingError`, or success with the
collected per-image outputs.  Output and the `processed` flag are only ever
attached on success (`psf_beads.py:853-875`). -/
inductive AnalyseOutcome where
  | returnedFalse
  | raisedSaturation (saturated_channels : List (String × List ℕ))
  | raisedFitting (msg : String)
  | success (results : List (String × ImageOutput))

/-- The output sink contents: populated only when the run succeeds. -/
def AnalyseOutcome.outputData :
    AnalyseOutcome → Option (List (String × ImageOutput))
  | .success r => some r
  | _ => none

/-- The `dataset.processed` flag: set only at the very end of a successful
run. -/
def AnalyseOutcome.processedFlag : AnalyseOutcome → Bool
  | .success _ => true
  | _ => false

/-- `analyse_psf_beads` (`psf_beads.py:545-875`): requirements validation is
a constant-true stub in the sources; then the shape/saturation loop, the
`SaturationError` raise, and the main per-image processing loop whose
`FittingError` propagates.  The construction of tables and ROIs from the
per-image outputs is pure bookkeeping on the success payload and is not
modelled further. -/
def analysePsfBeads (ext : Externals) (dataset : PSFBeadsDataset) :
    AnalyseOutcome :=
  let inp := dataset.input
  let min_bead_distance := estimateMinBeadDistance dataset
  match preparePhase inp.saturation_threshold inp.bit_depth []
      inp.psf_beads_images with
  | none => .returnedFalse
  | some saturated_channels =>
    if saturated_channels.any (fun e => e.2.length ≠ 0) then
      .raisedSaturation saturated_channels
    else
      match inp.psf_beads_images.mapM (fun img =>
          (processImage ext img (inp.sigma_z, inp.sigma_y, inp.sigma_x)
              min_bead_distance).map (fun io => (img.name, io))) with
      | .error msg => .raisedFitting msg
      | .ok results => .success results

/-! ## Per-channel peak data and dataset-level aggregation glue -/

/-- The inputs determining one channel's `_find_beads` classification: the
volume dimensions, the configured minimum bead distance, and the three peak
lists delivered by the external peak finder. -/
structure ChannelPeakData where
  zdim : ℕ
  ydim : ℕ
  xdim : ℕ
  min_distance : ℚ
  pos_all : List Pos3
  pos_prox : List Pos3
  pos_prox_edge_raw : List Pos3
deriving DecidableEq

def defaultChannelPeakData : ChannelPeakData :=
  ⟨0, 0, 0, 0, [], [], []⟩

def classifyOf (c : ChannelPeakData) : BeadClassification :=
  findBeadsClassify c.zdim c.ydim c.xdim c.min_distance c.pos_all c.pos_prox
    c.pos_prox_edge_raw

/-- The border-exclusion-filtered peak list of one channel (the set the code
calls `positions_proximity_edge_filtered`). -/
def edgeFilteredOf (c : ChannelPeakData) : List Pos3 :=
  excludeBorderFilter c.zdim c.ydim c.xdim (halfMinDistance c.min_distance)
    c.pos_prox_edge_raw

/-- The containments `peak_local_max` guarantees for its three calls on one
channel: a peak that survives distance-and-border filtering is a peak, and
distance filtering only removes peaks.  (The code's own comment notes the
first containment can fail — an interior peak suppressed next to a border
peak reappears once the border peak is masked out — which is why it takes an
intersection at `psf_beads.py:264-266`.) -/
def NestedPeaks (c : ChannelPeakData) : Prop :=
  edgeFilteredOf c ⊆ c.pos_prox ∧ c.pos_prox ⊆ c.pos_all

/-- A dataset of peak data: one entry per image (keyed by name, in
processing order), holding the per-channel peak data. -/
abbrev PeakDataset := List (String × List ChannelPeakData)

/-- The dict `discarded_positions_self_proximity` built by
`analyse_psf_beads` (`psf_beads.py:634-636`). -/
def spDict (ds : PeakDataset) : List (String × List (List Pos3)) :=
  ds.map (fun e => (e.1, e.2.map (fun c => (classifyOf c).discarded_proximity)))

/-- The dict `discarded_positions_lateral_edge` built by
`analyse_psf_beads` (`psf_beads.py:637-639`). -/
def leDict (ds : PeakDataset) : List (String × List (List Pos3)) :=
  ds.map (fun e => (e.1, e.2.map (fun c => (classifyOf c).discarded_edge)))

/-- Per image: the channel count and the per-channel valid-position lists
(one bead-properties row is emitted per valid position). -/
def validPerImage (ds : PeakDataset) : List (ℕ × List (List Pos3)) :=
  ds.map (fun e => (e.2.length, e.2.map (fun c => (classifyOf c).valid_positions)))

/-- The total number of peaks detected in channel `ch` across all images
(cardinality of the `positions_all` sets). -/
def totalPeaksPerChannel (ds : PeakDataset) (ch : ℕ) : ℕ :=
  (ds.map (fun e =>
    ((e.2.getD ch defaultChannelPeakData).pos_all).dedup.length)).sum

/-! ## Concrete example data -/

/-- An interior peak. -/
def exPosA : Pos3 := ⟨5, 10, 10⟩

/-- A second peak 4 pixels from `exPosA`, closer than the minimum distance
`5`, hence suppressed by the distance filter. -/
def exPosB : Pos3 := ⟨5, 10, 14⟩

/-- Peak data for a 10x21x21 channel with `min_distance = 5` where the peak
finder saw both peaks, and only `exPosA` survived the distance filter (with
and without border masking). -/
def exChannelData : ChannelPeakData :=
  ⟨10, 21, 21, 5, [exPosA, exPosB], [exPosA], [exPosA]⟩

/-- A 6x9x9 all-zero channel volume. -/
def exVolume : Volume :=
  List.replicate 6 (List.replicate 9 (List.replicate 9 (0 : ℚ)))

/-- An interior peak of `exVolume`. -/
def exPosC : Pos3 := ⟨2, 4, 4⟩

/-- Constant oracles: no smoothing effect is exercised (sigma is zero in the
examples), the peak finder reports `exPosC`, and fitting is never reached. -/
def exExternals : Externals where
  gaussian_filter := fun _ v => v
  plm_all := fun _ => [exPosC]
  plm_prox := fun _ _ => [exPosC]
  plm_prox_edge := fun _ _ _ => [exPosC]
  fit_airy := fun _ => .error "unused"

/-- Peak data for a 10x20x20 channel with `min_distance = 5` and a single
peak in row `y = 2`. -/
def exPosEdge : Pos3 := ⟨2, 2, 10⟩

def exChannelDataEdge : ChannelPeakData :=
  ⟨10, 20, 20, 5, [exPosEdge], [exPosEdge], [exPosEdge]⟩

/-- A z profile whose boundary samples carry intensity `100`. -/
def exZProfile : List ℚ := [100, 0, 0, 0, 0, 0, 0, 0, 0, 0, 100]

/-- A 11x1x1 bead crop realising `exZProfile` as its z profile. -/
def exBead : Volume := exZProfile.map (fun q => [[q]])

/-- A fit oracle returning centre `5` and FWHM `1` for every profile. -/
def exFit : List ℚ → Except String FitResult :=
  fun _ => .ok ⟨[], 0, 1, 5⟩

/-- The pooled sample size `len(bead_max_intensities)`. -/
def pooledN (crops : BeadCrops) : ℕ :=
  (beadMaxIntensities crops).length

/-- The pooled median of the bead maximum intensities
(`psf_beads.py:35`). -/
def pooledMedian (crops : BeadCrops) : ℚ :=
  npMedian (beadMaxIntensities crops)

/-- The pooled median absolute deviation (`psf_beads.py:36`). -/
def pooledMad (crops : BeadCrops) : ℚ :=
  npMedian ((beadMaxIntensities crops).map
    (fun x => |x - pooledMedian crops|))

/-- The bead crop at image `i`, channel `j`, bead `k`. -/
def beadAt (crops : BeadCrops) (i j k : ℕ) : Volume :=
  ((crops.getD i ("", [])).2.getD j []).getD k []

/-- The (robust z-score, outlier flag) pair computed for the bead at
image `i`, channel `j`, bead `k`. -/
def outlierResAt (crops : BeadCrops) (thr : ℚ) (i j k : ℕ) : ℚ × Bool :=
  (((calculateBeadIntensityOutliers crops thr).getD i ("", [])).2.getD j
    []).getD k (0, false)

/-- A one-image, one-channel pool of six single-voxel beads with distinct
maxima. -/
def exCropsSix : BeadCrops :=
  [("img", [[[[[0]]], [[[1]]], [[[2]]], [[[3]]], [[[4]]], [[[100]]]]])]

/-- A pool of four beads, more than half with identical maxima, so the MAD
of the pooled maxima is zero. -/
def exCropsMadZero : BeadCrops :=
  [("img", [[[[[5]]], [[[5]]], [[[5]]], [[[9]]]]])]

/-- A 3x4x4 channel volume with pairwise distinct values. -/
def exVolume2 : Volume :=
  (List.range 3).map (fun z => (List.range 4).map (fun y =>
    (List.range 4).map (fun x => ((z * 100 + y * 10 + x : ℕ) : ℚ))))

def exPosD : Pos3 := ⟨1, 2, 2⟩

/-- A 4-dimensional (malformed) image. -/
def exImage4D : MMImage :=
  ⟨"bad", [1, 1, 1, 1], [], none, none, none⟩

/-- A well-formed 1x1x1x1x1 image whose single pixel is at the 8-bit
maximum. -/
def exImageSaturated : MMImage :=
  ⟨"sat", [1, 1, 1, 1, 1], [[[[[255]]]]], some 1, some 1, some 1⟩

/-- A dataset with only the malformed image. -/
def exDatasetMalformed : PSFBeadsDataset :=
  ⟨⟨[exImage4D], 8, 0, 5, 10, 1, 2, 0, 0, 0⟩⟩

/-- A dataset holding the saturated well-formed image followed by the
malformed 4-dimensional image, with saturation threshold `0` and bit
depth 8. -/
def exDatasetMixed : PSFBeadsDataset :=
  ⟨⟨[exImageSaturated, exImage4D], 8, 0, 5, 10, 1, 2, 0, 0, 0⟩⟩

/-- A well-formed dataset holding only the saturated image. -/
def exDatasetSaturated : PSFBeadsDataset :=
  ⟨⟨[exImageSaturated], 8, 0, 5, 10, 1, 2, 0, 0, 0⟩⟩

/-- A well-formed, unsaturated single-channel image over `exVolume`. -/
def exImageGood : MMImage :=
  ⟨"good", [1, 6, 9, 9, 1], [[exVolume]], some 1, some 1, some 1⟩

/-- A well-formed dataset whose bead fits all fail (the `exExternals` fit
oracle always errors). -/
def exDatasetGood : PSFBeadsDataset :=
  ⟨⟨[exImageGood], 8, 0, 4, 10, 1, 2, 0, 0, 0⟩⟩

/-- The bead crop the detector produces for `exDatasetGood`. -/
def exBeadW : Volume :=
  cropBead (npClip0 (channelVolume exImageGood 0)) (halfMinDistance 4) exPosC

instance (c : ChannelPeakData) : Decidable (NestedPeaks c) :=
  inferInstanceAs (Decidable (_ ∧ _))

/-- `getD` through `List.map`, given an in-range index. -/
lemma getD_map_of_lt {α β : Type} (f : α → β) (l : List α) (i : ℕ) (d : β)
    (e : α) (h : i < l.length) : (l.map f).getD i d = f (l.getD i e) := by
  rw [List.getD_eq_getElem?_getD, List.getElem?_map,
    List.getElem?_eq_getElem h, List.getD_eq_getElem?_getD,
    List.getElem?_eq_getElem h]
  rfl

/-- An in-range `getD` value is a member of the list. -/
lemma getD_mem_of_lt {α : Type} (l : List α) (i : ℕ) (d : α)
    (h : i < l.length) : l.getD i d ∈ l := by
  rw [List.getD_eq_getElem?_getD, List.getElem?_eq_getElem h]
  exact List.getElem_mem h

/-- An out-of-range `getD` gives the default. -/
lemma getD_of_length_le {α : Type} (l : List α) (i : ℕ) (d : α)
    (h : l.length ≤ i) : l.getD i d = d := by
  rw [List.getD_eq_getElem?_getD, List.getElem?_eq_none h]
  rfl

/-! ## Claim C1 -/

/-- Folding `min` over a constant list is the identity. -/
lemma foldl_min_const (t : List ℕ) (C : ℕ) (h : ∀ x ∈ t, x = C) :
    t.foldl min C = C := by
  induction t with
  | nil => rfl
  | cons a s ih =>
    have ha : a = C := h a (by simp)
    subst ha
    rw [List.foldl_cons, min_self]
    exact ih (fun x hx => h x (by simp [hx]))

/-- `min?` of a nonempty constant list. -/
lemma min?_of_all_eq (l : List ℕ) (C : ℕ) (hne : l ≠ [])
    (h : ∀ x ∈ l, x = C) : l.min? = some C := by
  cases l with
  | nil => exact absurd rfl hne
  | cons a t =>
    have ha : a = C := h a (by simp)
    show some (t.foldl min a) = some C
    rw [ha, foldl_min_const t C (fun x hx => h x (by simp [hx]))]

/-- `filterMap` of in-range index lookups is a plain `map`. -/
lemma filterMap_getElem_eq_map {α : Type} (e : α) (xss : List (List α))
    (ch : ℕ) (hlen : ∀ xs ∈ xss, ch < xs.length) :
    xss.filterMap (fun xs => xs[ch]?) = xss.map (fun xs => xs.getD ch e) := by
  induction xss with
  | nil => rfl
  | cons a t ih =>
    have ha : ch < a.length := hlen a (by simp)
    rw [List.filterMap_cons, List.map_cons, List.getElem?_eq_getElem ha,
      List.getD_eq_getElem?_getD, List.getElem?_eq_getElem ha]
    exact congrArg _ (ih (fun xs hxs => hlen xs (by simp [hxs])))

/-- `pyZipStar` at an in-range channel index, for uniform row lengths. -/
lemma pyZipStar_getD {α : Type} (e : α) (xss : List (List α)) (C ch : ℕ)
    (hch : ch < C) (hlen : ∀ xs ∈ xss, xs.length = C) (hne : xss ≠ []) :
    (pyZipStar xss).getD ch [] = xss.map (fun xs => xs.getD ch e) := by
  unfold pyZipStar
  rw [min?_of_all_eq (xss.map List.length) C (by simpa using hne)
    (by simpa using hlen)]
  have hrange : (List.range C).getD ch 0 = ch := by
    rw [List.getD_eq_getElem?_getD, List.getElem?_range hch]
    rfl
  rw [getD_map_of_lt _ (List.range C) ch [] 0 (by simpa using hch), hrange]
  exact filterMap_getElem_eq_map e xss ch
    (fun xs hxs => by rw [hlen xs hxs]; exact hch)

/-- Length of `pyZipStar` for uniform row lengths. -/
lemma pyZipStar_length {α : Type} (xss : List (List α)) (C : ℕ)
    (hlen : ∀ xs ∈ xss, xs.length = C) (hne : xss ≠ []) :
    (pyZipStar xss).length = C := by
  unfold pyZipStar
  rw [min?_of_all_eq (xss.map List.length) C (by simpa using hne)
    (by simpa using hlen)]
  simp

/-- The per-channel discarded count is the sum of the per-image list
lengths at that channel. -/
lemma nrDiscardedPerChannel_getD (d : List (String × List (List Pos3)))
    (C ch : ℕ) (hch : ch < C) (hlen : ∀ e ∈ d, e.2.length = C)
    (hne : d ≠ []) :
    (nrDiscardedPerChannel d).getD ch 0 =
      (d.map (fun e => (e.2.getD ch []).length)).sum := by
  unfold nrDiscardedPerChannel
  have hlen2 : ∀ xs ∈ d.map (fun e => e.2), xs.length = C := by
    intro xs hxs
    rw [List.mem_map] at hxs
    obtain ⟨a, ha, rfl⟩ := hxs
    exact hlen a ha
  have hne2 : d.map (fun e => e.2) ≠ [] := by simpa using hne
  rw [getD_map_of_lt _ _ ch 0 []
    (by rw [pyZipStar_length _ C hlen2 hne2]; exact hch),
    pyZipStar_getD ([] : List Pos3) _ C ch hch hlen2 hne2,
    List.map_map, List.map_map]
  rfl

/-- Count of a channel label in the per-image channel column. -/
lemma count_replicate_flatMap (C : ℕ) (f : ℕ → ℕ) (ch : ℕ) :
    ((List.range C).flatMap (fun c => List.replicate (f c) c)).count ch =
      if ch < C then f ch else 0 := by
  induction C with
  | zero => simp
  | succ n ih =>
    rw [List.range_succ, List.flatMap_append, List.count_append, ih]
    simp only [List.flatMap_cons, List.flatMap_nil, List.append_nil,
      List.count_replicate]
    by_cases h : ch < n
    · rw [if_pos h, if_neg (by simp only [beq_iff_eq]; omega),
        if_pos (by omega)]
      omega
    · by_cases h2 : ch = n
      · subst h2
        rw [if_neg h, if_pos (by simp), if_pos (by omega)]
        omega
      · rw [if_neg h, if_neg (by simp only [beq_iff_eq]; omega),
          if_neg (by omega)]

/-- The channel column counts one row per bead of the channel. -/
lemma count_beadPropertiesChannelCol {α : Type}
    (per_image : List (ℕ × List (List α))) (ch : ℕ) :
    (beadPropertiesChannelCol per_image).count ch =
      (per_image.map (fun e =>
        if ch < e.1 then (e.2.getD ch []).length else 0)).sum := by
  induction per_image with
  | nil => rfl
  | cons a t ih =>
    unfold beadPropertiesChannelCol at ih ⊢
    rw [List.flatMap_cons, List.count_append, ih, List.map_cons,
      List.sum_cons, count_replicate_flatMap]

/-- Sums of two maps over the same list combine pointwise. -/
lemma sum_map_add {α : Type} (l : List α) (f g : α → ℕ) :
    (l.map f).sum + (l.map g).sum = (l.map (fun x => f x + g x)).sum := by
  induction l with
  | nil => rfl
  | cons a t ih =>
    simp only [List.map_cons, List.sum_cons]
    omega

/-- A key present in the column is reported by `groupbySizes` with its
count. -/
lemma groupbySizes_mem (keys : List ℕ) (k : ℕ) (hk : k ∈ keys) :
    (k, keys.count k) ∈ groupbySizes keys := by
  unfold groupbySizes
  rw [List.mem_map]
  exact ⟨k, by rw [Finset.mem_sort]; exact List.mem_toFinset.mpr hk, rfl⟩

/-- Two nodup lists with the same members, one filtered from the other,
have equal lengths. -/
lemma length_filter_mem_eq {A E : List Pos3} (hA : A.Nodup) (hE : E.Nodup)
    (hEA : ∀ p ∈ E, p ∈ A) :
    (A.filter (fun p => decide (p ∈ E))).length = E.length := by
  have hnd : (A.filter (fun p => decide (p ∈ E))).Nodup := hA.filter _
  have hfin : (A.filter (fun p => decide (p ∈ E))).toFinset = E.toFinset := by
    ext q
    simp only [List.mem_toFinset, List.mem_filter, decide_eq_true_eq]
    exact ⟨fun h => h.2, fun h => ⟨hEA q h, h⟩⟩
  calc (A.filter (fun p => decide (p ∈ E))).length
      = (A.filter (fun p => decide (p ∈ E))).toFinset.card :=
        (List.toFinset_card_of_nodup hnd).symm
    _ = E.toFinset.card := by rw [hfin]
    _ = E.length := List.toFinset_card_of_nodup hE

/-- Under the nesting guarantee, one channel's classification satisfies
`|valid| + |lateral_edge| = |all|` and the self-proximity discards are
contained in the lateral-edge discards. -/
lemma classify_partition (c : ChannelPeakData) (h : NestedPeaks c) :
    (classifyOf c).valid_positions.length +
        (classifyOf c).discarded_edge.length = c.pos_all.dedup.length ∧
      (classifyOf c).discarded_proximity ⊆ (classifyOf c).discarded_edge := by
  obtain ⟨h1, h2⟩ := h
  have hinter : ∀ p, p ∈ pySetInter c.pos_prox.dedup
      (edgeFilteredOf c).dedup ↔ p ∈ (edgeFilteredOf c).dedup := by
    intro p
    simp only [pySetInter, List.mem_filter, decide_eq_true_eq]
    exact ⟨fun hh => hh.2,
      fun hh => ⟨List.mem_dedup.mpr (h1 (List.mem_dedup.mp hh)), hh⟩⟩
  constructor
  · show (edgeFilteredOf c).dedup.length +
        (pySetDiff c.pos_all.dedup (pySetInter c.pos_prox.dedup
          (edgeFilteredOf c).dedup)).length = c.pos_all.dedup.length
    have hcongr : pySetDiff c.pos_all.dedup (pySetInter c.pos_prox.dedup
        (edgeFilteredOf c).dedup) =
        c.pos_all.dedup.filter
          (fun p => !decide (p ∈ (edgeFilteredOf c).dedup)) := by
      apply List.filter_congr
      intro p _hp
      simp [hinter p]
    rw [hcongr]
    have hsplit := List.length_eq_length_filter_add
      (l := c.pos_all.dedup) (fun p => decide (p ∈ (edgeFilteredOf c).dedup))
    have hlenE := length_filter_mem_eq (List.nodup_dedup c.pos_all)
      (List.nodup_dedup (edgeFilteredOf c))
      (fun p hp => List.mem_dedup.mpr (h2 (h1 (List.mem_dedup.mp hp))))
    omega
  · intro p hp
    simp only [classifyOf, findBeadsClassify, pySetDiff, List.mem_filter,
      decide_eq_true_eq] at hp ⊢
    refine ⟨hp.1, fun hcon => hp.2 ?_⟩
    exact (List.mem_filter.mp hcon).1

/-- Claim C1, counterexample: with two detected peaks of which one is
suppressed by the distance filter (peak-set containments as the library
guarantees them, `NestedPeaks`), the three reported categories sum to `3`
while only `2` peaks were detected — the classification double-counts the
self-proximity discard in the lateral-edge set, so it is not a partition of
the detected peaks. -/
theorem bead_count_conservation_fails :
    (classifyOf exChannelData).valid_positions.length +
        (classifyOf exChannelData).discarded_proximity.length +
        (classifyOf exChannelData).discarded_edge.length = 3 ∧
      exChannelData.pos_all.dedup.length = 2 ∧
      NestedPeaks exChannelData := by
  refine ⟨by decide, by decide, ?_, ?_⟩ <;> decide

/-- Claim C1, amended: per channel, `|valid| + |lateral_edge discards| =
|all peaks|` and every self-proximity discard also lies in the lateral-edge
discard set, so the three reported per-channel counts of the Key
Measurement Summary (beads analyzed, discarded for self-proximity,
discarded for lateral-edge) sum to the total number of detected peaks
*plus* the self-proximity count — conservation as originally claimed holds
only for channels without self-proximity discards.  Stated for datasets
with a uniform channel count whose peak sets satisfy the nesting the
peak finder guarantees. -/
theorem bead_counts_partition_amended (ds : PeakDataset) (C ch : ℕ)
    (hne : ds ≠ []) (hC : ∀ e ∈ ds, e.2.length = C) (hch : ch < C)
    (hnest : ∀ e ∈ ds, ∀ c ∈ e.2, NestedPeaks c) :
    (beadPropertiesChannelCol (validPerImage ds)).count ch +
        (nrDiscardedPerChannel (leDict ds)).getD ch 0 =
      totalPeaksPerChannel ds ch ∧
      (beadPropertiesChannelCol (validPerImage ds)).count ch +
          (nrDiscardedPerChannel (spDict ds)).getD ch 0 +
          (nrDiscardedPerChannel (leDict ds)).getD ch 0 =
        totalPeaksPerChannel ds ch +
          (nrDiscardedPerChannel (spDict ds)).getD ch 0 ∧
      (∀ e ∈ ds, ∀ c ∈ e.2, (classifyOf c).discarded_proximity ⊆
        (classifyOf c).discarded_edge) ∧
      (ch ∈ beadPropertiesChannelCol (validPerImage ds) →
        (ch, (beadPropertiesChannelCol (validPerImage ds)).count ch) ∈
          groupbySizes (beadPropertiesChannelCol (validPerImage ds))) := by
  have hcount : (beadPropertiesChannelCol (validPerImage ds)).count ch =
      (ds.map (fun e =>
        ((classifyOf (e.2.getD ch defaultChannelPeakData)).valid_positions
          ).length)).sum := by
    rw [count_beadPropertiesChannelCol]
    unfold validPerImage
    rw [List.map_map]
    refine congrArg List.sum (List.map_congr_left ?_)
    intro e he
    have hCe : e.2.length = C := hC e he
    show (if ch < e.2.length then
        ((e.2.map (fun c => (classifyOf c).valid_positions)).getD ch
          []).length else 0) = _
    rw [if_pos (by omega),
      getD_map_of_lt _ e.2 ch [] defaultChannelPeakData (by omega)]
  have hle : (nrDiscardedPerChannel (leDict ds)).getD ch 0 =
      (ds.map (fun e =>
        ((classifyOf (e.2.getD ch defaultChannelPeakData)).discarded_edge
          ).length)).sum := by
    rw [nrDiscardedPerChannel_getD (leDict ds) C ch hch ?_ ?_]
    · unfold leDict
      rw [List.map_map]
      refine congrArg List.sum (List.map_congr_left ?_)
      intro e he
      have hCe : e.2.length = C := hC e he
      show ((e.2.map (fun c => (classifyOf c).discarded_edge)).getD ch
        []).length = _
      rw [getD_map_of_lt _ e.2 ch [] defaultChannelPeakData (by omega)]
    · intro e hmem
      rw [leDict, List.mem_map] at hmem
      obtain ⟨a, ha, rfl⟩ := hmem
      simpa using hC a ha
    · simpa [leDict] using hne
  have hsp : (nrDiscardedPerChannel (spDict ds)).getD ch 0 =
      (ds.map (fun e =>
        ((classifyOf (e.2.getD ch defaultChannelPeakData)
          ).discarded_proximity).length)).sum := by
    rw [nrDiscardedPerChannel_getD (spDict ds) C ch hch ?_ ?_]
    · unfold spDict
      rw [List.map_map]
      refine congrArg List.sum (List.map_congr_left ?_)
      intro e he
      have hCe : e.2.length = C := hC e he
      show ((e.2.map (fun c => (classifyOf c).discarded_proximity)).getD ch
        []).length = _
      rw [getD_map_of_lt _ e.2 ch [] defaultChannelPeakData (by omega)]
    · intro e hmem
      rw [spDict, List.mem_map] at hmem
      obtain ⟨a, ha, rfl⟩ := hmem
      simpa using hC a ha
    · simpa [spDict] using hne
  have hmain : (beadPropertiesChannelCol (validPerImage ds)).count ch +
      (nrDiscardedPerChannel (leDict ds)).getD ch 0 =
      totalPeaksPerChannel ds ch := by
    rw [hcount, hle, sum_map_add]
    unfold totalPeaksPerChannel
    refine congrArg List.sum (List.map_congr_left ?_)
    intro e he
    have hCe : e.2.length = C := hC e he
    have hmem : e.2.getD ch defaultChannelPeakData ∈ e.2 :=
      getD_mem_of_lt e.2 ch defaultChannelPeakData (by omega)
    exact (classify_partition _ (hnest e he _ hmem)).1
  refine ⟨hmain, by omega, ?_, ?_⟩
  · intro e he c hc
    exact (classify_partition c (hnest e he c hc)).2
  · intro hmem
    exact groupbySizes_mem _ ch hmem

/-- Witness for `bead_counts_partition_amended` at a one-image, one-channel
dataset built from `exChannelData`. -/
theorem bead_counts_partition_amended_witness :
    (([("img", [exChannelData])] : PeakDataset) ≠ [] ∧ (0 : ℕ) < 1 ∧
      NestedPeaks exChannelData) ∧
    ((beadPropertiesChannelCol (validPerImage [("img", [exChannelData])])
        ).count 0 +
        (nrDiscardedPerChannel (leDict [("img", [exChannelData])])).getD 0 0 =
      totalPeaksPerChannel [("img", [exChannelData])] 0 ∧
      (beadPropertiesChannelCol (validPerImage [("img", [exChannelData])])
          ).count 0 +
          (nrDiscardedPerChannel (spDict [("img", [exChannelData])])
            ).getD 0 0 +
          (nrDiscardedPerChannel (leDict [("img", [exChannelData])])
            ).getD 0 0 =
        totalPeaksPerChannel [("img", [exChannelData])] 0 +
          (nrDiscardedPerChannel (spDict [("img", [exChannelData])])
            ).getD 0 0 ∧
      (∀ e ∈ ([("img", [exChannelData])] : PeakDataset), ∀ c ∈ e.2,
        (classifyOf c).discarded_proximity ⊆ (classifyOf c).discarded_edge) ∧
      (0 ∈ beadPropertiesChannelCol (validPerImage [("img", [exChannelData])])
        → (0, (beadPropertiesChannelCol
            (validPerImage [("img", [exChannelData])])).count 0) ∈
          groupbySizes (beadPropertiesChannelCol
            (validPerImage [("img", [exChannelData])])))) :=
  ⟨⟨by decide, by decide, by decide⟩,
    bead_counts_partition_amended [("img", [exChannelData])] 1 0 (by decide)
      (by decide) (by decide) (by decide)⟩

/-! ## Claims C3 and C10 -/

/-- Unfolding of the per-bead scoring at in-range indices. -/
lemma outlierResAt_eq (crops : BeadCrops) (thr : ℚ) (i j k : ℕ)
    (hi : i < crops.length)
    (hj : j < (crops.getD i ("", [])).2.length)
    (hk : k < ((crops.getD i ("", [])).2.getD j []).length) :
    outlierResAt crops thr i j k =
      if pooledN crops = 1 then ((0 : ℚ), false)
      else if 1 < pooledN crops ∧ pooledN crops < 6 then
        (robustFactor * (beadMax (beadAt crops i j k) - pooledMedian crops) /
          pooledMad crops, false)
      else
        (robustFactor * (beadMax (beadAt crops i j k) - pooledMedian crops) /
          pooledMad crops,
          decide (|robustFactor *
            (beadMax (beadAt crops i j k) - pooledMedian crops) /
              pooledMad crops| > thr)) := by
  simp only [outlierResAt, calculateBeadIntensityOutliers]
  rw [getD_map_of_lt _ crops i ("", []) ("", []) hi]
  rw [getD_map_of_lt _ _ j [] [] hj, getD_map_of_lt _ _ k (0, false) [] hk]
  rfl

/-- Claim C3: with one pooled sample the robust z-score is zero and no
outlier is flagged; with two to five pooled samples the score is
`0.6745 * (max - median) / MAD` but no outlier is ever flagged; with six or
more samples the outlier flag holds exactly when the absolute score exceeds
the configured threshold. -/
theorem intensity_outlier_policy (crops : BeadCrops) (thr : ℚ) (i j k : ℕ)
    (hi : i < crops.length)
    (hj : j < (crops.getD i ("", [])).2.length)
    (hk : k < ((crops.getD i ("", [])).2.getD j []).length) :
    (pooledN crops = 1 → outlierResAt crops thr i j k = (0, false)) ∧
      (1 < pooledN crops ∧ pooledN crops < 6 →
        outlierResAt crops thr i j k =
          (robustFactor * (beadMax (beadAt crops i j k) -
            pooledMedian crops) / pooledMad crops, false)) ∧
      (6 ≤ pooledN crops →
        (outlierResAt crops thr i j k).1 =
          robustFactor * (beadMax (beadAt crops i j k) -
            pooledMedian crops) / pooledMad crops ∧
        ((outlierResAt crops thr i j k).2 = true ↔
          |robustFactor * (beadMax (beadAt crops i j k) -
            pooledMedian crops) / pooledMad crops| > thr)) := by
  rw [outlierResAt_eq crops thr i j k hi hj hk]
  refine ⟨fun h => by rw [if_pos h], fun h => by
    rw [if_neg (by omega), if_pos h], fun h => ?_⟩
  rw [if_neg (by omega), if_neg (by omega)]
  exact ⟨rfl, by simp⟩

/-- Witness for `intensity_outlier_policy` on the six-bead pool. -/
theorem intensity_outlier_policy_witness :
    (0 < exCropsSix.length ∧ 0 < (exCropsSix.getD 0 ("", [])).2.length ∧
      5 < ((exCropsSix.getD 0 ("", [])).2.getD 0 []).length) ∧
    ((pooledN exCropsSix = 1 → outlierResAt exCropsSix 1 0 0 5 = (0, false)) ∧
      (1 < pooledN exCropsSix ∧ pooledN exCropsSix < 6 →
        outlierResAt exCropsSix 1 0 0 5 =
          (robustFactor * (beadMax (beadAt exCropsSix 0 0 5) -
            pooledMedian exCropsSix) / pooledMad exCropsSix, false)) ∧
      (6 ≤ pooledN exCropsSix →
        (outlierResAt exCropsSix 1 0 0 5).1 =
          robustFactor * (beadMax (beadAt exCropsSix 0 0 5) -
            pooledMedian exCropsSix) / pooledMad exCropsSix ∧
        ((outlierResAt exCropsSix 1 0 0 5).2 = true ↔
          |robustFactor * (beadMax (beadAt exCropsSix 0 0 5) -
            pooledMedian exCropsSix) / pooledMad exCropsSix| > 1))) :=
  ⟨⟨by decide, by decide, by decide⟩,
    intensity_outlier_policy exCropsSix 1 0 0 5 (by decide) (by decide)
      (by decide)⟩

/-- Claim C10: for any pool of at least two beads, every bead's robust
z-score is computed as `0.6745 * (max - median) / MAD` with no guard on a
zero MAD; the concrete pool `exCropsMadZero` (more than half of the maxima
identical) reaches that division with `MAD = 0`.  (Over `ℚ` the division
then silently yields `0`; in the floating-point original it is a division
by zero.) -/
theorem robust_z_score_unguarded_mad (crops : BeadCrops) (thr : ℚ)
    (i j k : ℕ) (hi : i < crops.length)
    (hj : j < (crops.getD i ("", [])).2.length)
    (hk : k < ((crops.getD i ("", [])).2.getD j []).length)
    (h2 : 2 ≤ pooledN crops) :
    (outlierResAt crops thr i j k).1 =
      robustFactor * (beadMax (beadAt crops i j k) - pooledMedian crops) /
        pooledMad crops ∧
      pooledMad exCropsMadZero = 0 ∧ 2 ≤ pooledN exCropsMadZero := by
  rw [outlierResAt_eq crops thr i j k hi hj hk]
  refine ⟨?_, by decide, by decide⟩
  rw [if_neg (by omega)]
  by_cases h : 1 < pooledN crops ∧ pooledN crops < 6
  · rw [if_pos h]
  · rw [if_neg h]

/-- Witness for `robust_z_score_unguarded_mad` at the zero-MAD pool, on the
bead whose maximum deviates from the median. -/
theorem robust_z_score_unguarded_mad_witness :
    (0 < exCropsMadZero.length ∧
      0 < (exCropsMadZero.getD 0 ("", [])).2.length ∧
      3 < ((exCropsMadZero.getD 0 ("", [])).2.getD 0 []).length ∧
      2 ≤ pooledN exCropsMadZero) ∧
    ((outlierResAt exCropsMadZero 1 0 0 3).1 =
      robustFactor * (beadMax (beadAt exCropsMadZero 0 0 3) -
        pooledMedian exCropsMadZero) / pooledMad exCropsMadZero ∧
      pooledMad exCropsMadZero = 0 ∧ 2 ≤ pooledN exCropsMadZero) :=
  ⟨⟨by decide, by decide, by decide, by decide⟩,
    robust_z_score_unguarded_mad exCropsMadZero 1 0 0 3 (by decide)
      (by decide) (by decide) (by decide)⟩

/-! ## Claim C4 -/

/-- Claim C4, counterexample: the peak `exPosB`, suppressed by the distance
filter, lands in the code's `lateral_edge` exclusion set even though it is
not in the distance-filtered set (so `lateral_edge` is not
`distance-filtered minus distance-and-edge-filtered`), and it sits in both
exclusion sets at once (not an exclusive classification). -/
theorem lateral_edge_set_difference_fails :
    exPosB ∈ (classifyOf exChannelData).discarded_edge ∧
      exPosB ∉ exChannelData.pos_prox ∧
      exPosB ∈ (classifyOf exChannelData).discarded_proximity := by
  decide

/-- Claim C4, amended: the self-proximity set is `all minus
distance-filtered` as claimed, but the code's lateral-edge set is
`all minus (distance-filtered intersected with distance-and-edge-filtered)`
rather than the claimed difference of the two filtered sets; and only under
the nesting guarantee `NestedPeaks` is no position simultaneously valid and
in an exclusion set. -/
theorem discard_sets_characterisation (c : ChannelPeakData) :
    ((classifyOf c).discarded_proximity.toFinset =
        c.pos_all.toFinset \ c.pos_prox.toFinset) ∧
      ((classifyOf c).discarded_edge.toFinset =
        c.pos_all.toFinset \
          (c.pos_prox.toFinset ∩ (edgeFilteredOf c).toFinset)) ∧
      (NestedPeaks c → ∀ p ∈ (classifyOf c).valid_positions,
        p ∉ (classifyOf c).discarded_proximity ∧
        p ∉ (classifyOf c).discarded_edge) := by
  refine ⟨?_, ?_, ?_⟩
  · ext q
    simp [classifyOf, findBeadsClassify, pySetDiff, List.mem_filter,
      List.mem_dedup]
  · ext q
    simp only [classifyOf, findBeadsClassify, pySetDiff, pySetInter,
      edgeFilteredOf, List.mem_toFinset, List.mem_filter, List.mem_dedup,
      Finset.mem_sdiff, Finset.mem_inter, decide_eq_true_eq]
  · rintro ⟨h1, _h2⟩ p hp
    simp only [classifyOf, findBeadsClassify, List.mem_dedup] at hp
    have hprox : p ∈ c.pos_prox := h1 hp
    constructor
    · simp only [classifyOf, findBeadsClassify, pySetDiff, List.mem_filter,
        List.mem_dedup, decide_eq_true_eq]
      intro hcon
      exact absurd hprox hcon.2
    · simp only [classifyOf, findBeadsClassify, pySetDiff, pySetInter,
        List.mem_filter, List.mem_dedup, decide_eq_true_eq]
      intro hcon
      exact absurd ⟨hprox, hp⟩ hcon.2

/-- Witness for `discard_sets_characterisation`: on `exChannelData` the
nesting hypothesis of the third conjunct holds and valid beads avoid both
exclusion sets. -/
theorem discard_sets_characterisation_witness :
    NestedPeaks exChannelData ∧
      (∀ p ∈ (classifyOf exChannelData).valid_positions,
        p ∉ (classifyOf exChannelData).discarded_proximity ∧
        p ∉ (classifyOf exChannelData).discarded_edge) :=
  ⟨⟨by decide, by decide⟩,
    (discard_sets_characterisation exChannelData).2.2 ⟨by decide, by decide⟩⟩

/-! ## Claim C5 -/

/-- Claim C5: the code flags `axial_edge` by comparing the fitted z-centre
against the first/last *intensity samples* of the z profile, not against
the boundary indices.  On a bead whose boundary samples have intensity
`100`, a fit with centre `5` and FWHM `1` (centre more than `4 * FWHM`
away from both boundary indices of the length-11 profile, as the last two
conjuncts record) is flagged `true` by the code while the spec's
boundary-index criterion says `false`. -/
theorem axial_edge_uses_intensity_not_index :
    (processBead exFit exBead (none, none, none)).toOption.map
        (fun r => r.considered_axial_edge) = some true ∧
      consideredAxialEdgeSpec exZProfile 1 5 = false ∧
      (4 : ℚ) * 1 ≤ 5 - 0 ∧
      (4 : ℚ) * 1 ≤ ((exZProfile.length : ℚ) - 1) - 5 := by
  decide

/-! ## Claim C6 -/

/-- Claim C6, counterexample: with `min_distance = 5` the code passes
`int(5 // 2) = 2` as the lateral `exclude_border` width, so a peak in row
`y = 2` is retained as valid although it lies within
`ceil(5/2) = 3` of the lateral border. -/
theorem lateral_border_width_not_ceil :
    exPosEdge ∈ (classifyOf exChannelDataEdge).valid_positions ∧
      (exPosEdge.y : ℤ) < Int.ceil ((5 : ℚ) / 2) ∧
      exChannelDataEdge.min_distance = 5 ∧
      halfMinDistance 5 = 2 := by
  refine ⟨by decide, ?_, by decide, by decide⟩
  have h3 : Int.ceil ((5 : ℚ) / 2) = 3 := by
    rw [Int.ceil_eq_iff]
    norm_num
  rw [h3]
  decide

/-- Claim C6, amended: every valid (distance-and-edge-filtered) peak lies at
least `int(min_distance // 2)` — `min_distance / 2` rounded *down*, not up —
away from each lateral border. -/
theorem valid_peaks_respect_floor_border (zdim ydim xdim : ℕ) (d : ℚ)
    (pAll pProx pEraw : List Pos3) (p : Pos3)
    (hp : p ∈ (findBeadsClassify zdim ydim xdim d pAll pProx
      pEraw).valid_positions) :
    halfMinDistance d ≤ (p.y : ℤ) ∧ (p.y : ℤ) + halfMinDistance d < (ydim : ℤ) ∧
      halfMinDistance d ≤ (p.x : ℤ) ∧
      (p.x : ℤ) + halfMinDistance d < (xdim : ℤ) := by
  simp only [findBeadsClassify, excludeBorderFilter, List.mem_dedup,
    List.mem_filter, decide_eq_true_eq] at hp
  exact ⟨hp.2.2.2.1, hp.2.2.2.2.1, hp.2.2.2.2.2.1, hp.2.2.2.2.2.2⟩

/-- Witness for `valid_peaks_respect_floor_border` at the concrete channel
data `exChannelDataEdge`. -/
theorem valid_peaks_respect_floor_border_witness :
    exPosEdge ∈ (findBeadsClassify 10 20 20 5 [exPosEdge] [exPosEdge]
        [exPosEdge]).valid_positions ∧
      (halfMinDistance 5 ≤ (exPosEdge.y : ℤ) ∧
        (exPosEdge.y : ℤ) + halfMinDistance 5 < (20 : ℤ) ∧
        halfMinDistance 5 ≤ (exPosEdge.x : ℤ) ∧
        (exPosEdge.x : ℤ) + halfMinDistance 5 < (20 : ℤ)) :=
  ⟨by decide, valid_peaks_respect_floor_border 10 20 20 5 [exPosEdge]
    [exPosEdge] [exPosEdge] exPosEdge (by decide)⟩

/-! ## Claim C9 -/

/-- Claim C9, counterexample: the bead crop produced by the detector for the
valid peak `exPosC` of the 6x9x9 volume with `min_distance = 4` spans the
*full* z axis (6 planes), whereas a crop of half-width `min_distance/2 = 2`
around the centroid in each dimension would have 4 planes; the produced
sub-volume is not the spec's crop. -/
theorem crop_not_axial_window :
    (findBeads exExternals exVolume (0, 0, 0) 4).bead_images =
        [cropBead exVolume (halfMinDistance 4) exPosC] ∧
      halfMinDistance 4 = 2 ∧
      (cropBead exVolume 2 exPosC).length = 6 ∧
      (cropBeadSpec exVolume 2 exPosC).length = 4 ∧
      cropBead exVolume 2 exPosC ≠ cropBeadSpec exVolume 2 exPosC := by
  decide

/-- Normalised slice endpoints within range reduce to `Int.toNat`. -/
lemma pySliceIdx_eq_toNat (n : ℕ) (i : ℤ) (h0 : 0 ≤ i) (hn : i ≤ (n : ℤ)) :
    pySliceIdx n i = i.toNat := by
  unfold pySliceIdx
  rw [if_neg (by omega), min_eq_left hn, max_eq_right h0]

/-- Length of an in-range Python slice. -/
lemma pySlice_length {α : Type} (l : List α) (a b : ℤ) (h0 : 0 ≤ a)
    (hab : a ≤ b) (hb : b ≤ (l.length : ℤ)) :
    (pySlice l a b).length = (b - a).toNat := by
  unfold pySlice
  rw [pySliceIdx_eq_toNat _ _ (le_trans h0 hab) hb,
    pySliceIdx_eq_toNat _ _ h0 (le_trans hab hb)]
  rw [List.length_drop, List.length_take]
  omega

/-- Elements of an in-range Python slice, by index. -/
lemma pySlice_getD {α : Type} (l : List α) (a b : ℤ) (d : α) (i : ℕ)
    (h0 : 0 ≤ a) (hb : b ≤ (l.length : ℤ)) (hi : (i : ℤ) < b - a) :
    (pySlice l a b).getD i d = l.getD (a.toNat + i) d := by
  have hab : a ≤ b := by omega
  unfold pySlice
  rw [pySliceIdx_eq_toNat _ _ (le_trans h0 hab) hb,
    pySliceIdx_eq_toNat _ _ h0 (le_trans hab hb)]
  rw [List.getD_eq_getElem?_getD, List.getD_eq_getElem?_getD,
    List.getElem?_drop, List.getElem?_take, if_pos (by omega)]

/-- A Python slice only keeps elements of the original list. -/
lemma mem_of_mem_pySlice {α : Type} {l : List α} {a b : ℤ} {x : α}
    (hx : x ∈ pySlice l a b) : x ∈ l :=
  List.mem_of_mem_take (List.mem_of_mem_drop hx)

/-- Claim C9, amended: for a rectangular channel and a centroid whose lateral
window of half-width `k = int(min_distance // 2)` lies inside the lateral
bounds (as the border exclusion guarantees for valid peaks), the produced
crop spans the *full* z axis, has lateral extent exactly `2 * k` in y and x
(no clipping occurs), and copies the channel values at the window offsets. -/
theorem crop_full_z_and_lateral_window (channel : Volume) (k : ℤ) (p : Pos3)
    (hk : 0 ≤ k)
    (hy1 : k ≤ (p.y : ℤ)) (hy2 : (p.y : ℤ) + k ≤ (volYdim channel : ℤ))
    (hx1 : k ≤ (p.x : ℤ)) (hx2 : (p.x : ℤ) + k ≤ (volXdim channel : ℤ))
    (hrect : ∀ sl ∈ channel, sl.length = volYdim channel ∧
      ∀ row ∈ sl, row.length = volXdim channel) :
    (cropBead channel k p).length = volZdim channel ∧
      (∀ sl ∈ cropBead channel k p, sl.length = (2 * k).toNat ∧
        ∀ row ∈ sl, row.length = (2 * k).toNat) ∧
      ∀ zi yi xi : ℕ, (yi : ℤ) < 2 * k → (xi : ℤ) < 2 * k →
        (((cropBead channel k p).getD zi []).getD yi []).getD xi 0 =
          ((channel.getD zi []).getD (((p.y : ℤ) - k).toNat + yi) []).getD
            (((p.x : ℤ) - k).toNat + xi) 0 := by
  refine ⟨by simp [cropBead, volZdim], ?_, ?_⟩
  · intro sl hsl
    rw [cropBead, List.mem_map] at hsl
    obtain ⟨zsl, hzsl, rfl⟩ := hsl
    have hylen : zsl.length = volYdim channel := (hrect zsl hzsl).1
    constructor
    · rw [List.length_map, pySlice_length _ _ _ (by omega) (by omega)
        (by rw [hylen]; omega)]
      omega
    · intro row hrow
      rw [List.mem_map] at hrow
      obtain ⟨row0, hrow0, rfl⟩ := hrow
      have hxlen : row0.length = volXdim channel :=
        (hrect zsl hzsl).2 row0 (mem_of_mem_pySlice hrow0)
      rw [pySlice_length _ _ _ (by omega) (by omega) (by rw [hxlen]; omega)]
      omega
  · intro zi yi xi hyi hxi
    by_cases hzi : zi < channel.length
    · have hmem : channel.getD zi [] ∈ channel :=
        getD_mem_of_lt channel zi [] hzi
      have hylen : (channel.getD zi []).length = volYdim channel :=
        (hrect _ hmem).1
      have hcz : (cropBead channel k p).getD zi [] =
          (pySlice (channel.getD zi []) ((p.y : ℤ) - k) ((p.y : ℤ) + k)).map
            (fun row => pySlice row ((p.x : ℤ) - k) ((p.x : ℤ) + k)) := by
        rw [cropBead]
        exact getD_map_of_lt _ channel zi [] [] hzi
      rw [hcz]
      have hyin : yi < (pySlice (channel.getD zi []) ((p.y : ℤ) - k)
          ((p.y : ℤ) + k)).length := by
        rw [pySlice_length _ _ _ (by omega) (by omega) (by rw [hylen]; omega)]
        omega
      rw [getD_map_of_lt _ _ yi [] [] hyin,
        pySlice_getD (channel.getD zi []) _ _ ([] : List ℚ) yi (by omega)
          (by rw [hylen]; omega) (by omega)]
      have hyr : ((p.y : ℤ) - k).toNat + yi < (channel.getD zi []).length := by
        rw [hylen]
        omega
      have hxlen : ((channel.getD zi []).getD (((p.y : ℤ) - k).toNat + yi)
          []).length = volXdim channel :=
        (hrect _ hmem).2 _ (getD_mem_of_lt _ _ [] hyr)
      exact pySlice_getD _ _ _ 0 xi (by omega) (by rw [hxlen]; omega)
        (by omega)
    · have hlen : (cropBead channel k p).length ≤ zi := by
        rw [cropBead, List.length_map]
        omega
      rw [getD_of_length_le _ _ _ hlen,
        getD_of_length_le channel zi [] (by omega)]
      rfl

/-! ## Claims C2 and C7: the prepare phase of `analyse_psf_beads` -/

/-- If some image is not 5-dimensional, the first loop returns `False`
before the saturation raise can happen. -/
lemma preparePhase_none_of_malformed (thr : ℚ) (bd : ℕ)
    (imgs : List MMImage) (acc : List (String × List ℕ))
    (h : ∃ img ∈ imgs, img.shape.length ≠ 5) :
    preparePhase thr bd acc imgs = none := by
  induction imgs generalizing acc with
  | nil =>
    obtain ⟨img, h1, _⟩ := h
    simp at h1
  | cons a t ih =>
    obtain ⟨img, h1, h2⟩ := h
    unfold preparePhase
    by_cases ha : a.shape.length ≠ 5
    · rw [if_pos ha]
    · rw [if_neg ha]
      apply ih
      rcases List.mem_cons.mp h1 with rfl | hmem
      · exact absurd h2 ha
      · exact ⟨img, hmem, h2⟩

/-- For well-formed images with distinct names, the first loop collects the
saturated channels of every image, in order. -/
lemma preparePhase_eq_of_wellformed (thr : ℚ) (bd : ℕ)
    (imgs : List MMImage) (acc : List (String × List ℕ))
    (h5 : ∀ img ∈ imgs, img.shape.length = 5)
    (hdisj : ∀ img ∈ imgs, ∀ e ∈ acc, e.1 ≠ img.name)
    (hnodup : (imgs.map (fun i => i.name)).Nodup) :
    preparePhase thr bd acc imgs =
      some (acc ++ imgs.map (fun img =>
        (img.name, saturatedChannelsOf thr bd img))) := by
  induction imgs generalizing acc with
  | nil => simp [preparePhase]
  | cons a t ih =>
    have hnodup2 : (∀ x ∈ t, ¬ x.name = a.name) ∧
        (List.map (fun i => i.name) t).Nodup := by
      simpa using hnodup
    unfold preparePhase
    rw [if_neg (by simp [h5 a (by simp)])]
    have hins : dictInsert acc a.name (saturatedChannelsOf thr bd a) =
        acc ++ [(a.name, saturatedChannelsOf thr bd a)] := by
      unfold dictInsert
      rw [if_neg ?_]
      rw [List.any_eq_true]
      rintro ⟨e, he, heq⟩
      exact hdisj a (by simp) e he (by simpa using heq)
    have hdisj2 : ∀ img ∈ t,
        ∀ e ∈ acc ++ [(a.name, saturatedChannelsOf thr bd a)],
        e.1 ≠ img.name := by
      intro img hmem e he
      rcases List.mem_append.mp he with hacc | hnew
      · exact hdisj img (by simp [hmem]) e hacc
      · rw [List.mem_singleton] at hnew
        subst hnew
        intro hcon
        exact hnodup2.1 img hmem (by simpa using hcon.symm)
    rw [hins, ih (acc ++ [(a.name, saturatedChannelsOf thr bd a)])
      (fun img hmem => h5 img (by simp [hmem])) hdisj2 hnodup2.2]
    simp

/-- Witness for `crop_full_z_and_lateral_window` on the concrete volume
`exVolume2` with `k = 1`. -/
theorem crop_full_z_and_lateral_window_witness :
    ((0 : ℤ) ≤ 1 ∧ (1 : ℤ) ≤ (exPosD.y : ℤ) ∧
      (exPosD.y : ℤ) + 1 ≤ (volYdim exVolume2 : ℤ) ∧
      (1 : ℤ) ≤ (exPosD.x : ℤ) ∧
      (exPosD.x : ℤ) + 1 ≤ (volXdim exVolume2 : ℤ) ∧
      (∀ sl ∈ exVolume2, sl.length = volYdim exVolume2 ∧
        ∀ row ∈ sl, row.length = volXdim exVolume2)) ∧
    ((cropBead exVolume2 1 exPosD).length = volZdim exVolume2 ∧
      (∀ sl ∈ cropBead exVolume2 1 exPosD, sl.length = ((2 : ℤ) * 1).toNat ∧
        ∀ row ∈ sl, row.length = ((2 : ℤ) * 1).toNat) ∧
      ∀ zi yi xi : ℕ, (yi : ℤ) < 2 * 1 → (xi : ℤ) < 2 * 1 →
        (((cropBead exVolume2 1 exPosD).getD zi []).getD yi []).getD xi 0 =
          ((exVolume2.getD zi []).getD
            (((exPosD.y : ℤ) - 1).toNat + yi) []).getD
              (((exPosD.x : ℤ) - 1).toNat + xi) 0) :=
  ⟨⟨by decide, by decide, by decide, by decide, by decide, by decide⟩,
    crop_full_z_and_lateral_window exVolume2 1 exPosD (by decide) (by decide)
      (by decide) (by decide) (by decide) (by decide)⟩

/-! ## Claim C7 -/

/-- Claim C7: a dataset containing any image whose array is not
5-dimensional makes `analyse_psf_beads` return `False` — detected in the
first loop, before any bead detection (the outcome is the same for every
choice of external oracles, which are never consulted), without raising,
with no output attached and the dataset not marked processed. -/
theorem malformed_input_returns_false (ext : Externals)
    (ds : PSFBeadsDataset)
    (hbad : ∃ img ∈ ds.input.psf_beads_images, img.shape.length ≠ 5) :
    analysePsfBeads ext ds = .returnedFalse ∧
      (∀ ext2 : Externals, analysePsfBeads ext2 ds = analysePsfBeads ext ds) ∧
      (analysePsfBeads ext ds).outputData = none ∧
      (analysePsfBeads ext ds).processedFlag = false := by
  have h := preparePhase_none_of_malformed ds.input.saturation_threshold
    ds.input.bit_depth ds.input.psf_beads_images [] hbad
  have key : ∀ e : Externals, analysePsfBeads e ds = .returnedFalse := by
    intro e
    simp only [analysePsfBeads, h]
  exact ⟨key ext, fun ext2 => (key ext2).trans (key ext).symm,
    by rw [key ext]; rfl, by rw [key ext]; rfl⟩

/-- Witness for `malformed_input_returns_false` at `exDatasetMalformed`. -/
theorem malformed_input_returns_false_witness :
    (∃ img ∈ exDatasetMalformed.input.psf_beads_images,
      img.shape.length ≠ 5) ∧
    (analysePsfBeads exExternals exDatasetMalformed = .returnedFalse ∧
      (∀ ext2 : Externals, analysePsfBeads ext2 exDatasetMalformed =
        analysePsfBeads exExternals exDatasetMalformed) ∧
      (analysePsfBeads exExternals exDatasetMalformed).outputData = none ∧
      (analysePsfBeads exExternals
        exDatasetMalformed).processedFlag = false) :=
  ⟨by decide, malformed_input_returns_false exExternals exDatasetMalformed
    (by decide)⟩

/-! ## Claim C2 -/

/-- Claim C2, counterexample: in `exDatasetMixed` a well-formed
5-dimensional image has a saturated channel, yet `analyse_psf_beads`
returns `False` instead of raising a `SaturationError`, because the shape
check of the later malformed image aborts the first loop before the
saturation raise is reached. -/
theorem saturation_error_preempted_by_malformed_image :
    exImageSaturated.shape.length = 5 ∧
      isSaturated (channelAllPixels exImageSaturated 0)
        exDatasetMixed.input.saturation_threshold
        exDatasetMixed.input.bit_depth = true ∧
      saturatedChannelsOf exDatasetMixed.input.saturation_threshold
        exDatasetMixed.input.bit_depth exImageSaturated ≠ [] ∧
      analysePsfBeads exExternals exDatasetMixed = .returnedFalse := by
  refine ⟨by decide, by decide, by decide, ?_⟩
  rfl

/-- Claim C2, amended: for a dataset in which *every* image is
5-dimensional (and image names are distinct), if any channel of any image
is saturated then `analyse_psf_beads` raises a `SaturationError` whose
payload lists, for every image in order, exactly its saturated channels;
the outcome is independent of the external oracles (nothing is detected or
fitted), no output is attached, and the dataset is not marked processed. -/
theorem saturation_raises_for_wellformed_datasets (ext : Externals)
    (ds : PSFBeadsDataset)
    (h5 : ∀ img ∈ ds.input.psf_beads_images, img.shape.length = 5)
    (hnames : (ds.input.psf_beads_images.map (fun i => i.name)).Nodup)
    (hsat : ∃ img ∈ ds.input.psf_beads_images,
      saturatedChannelsOf ds.input.saturation_threshold ds.input.bit_depth
        img ≠ []) :
    analysePsfBeads ext ds = .raisedSaturation
        (ds.input.psf_beads_images.map (fun img =>
          (img.name, saturatedChannelsOf ds.input.saturation_threshold
            ds.input.bit_depth img))) ∧
      (∀ ext2 : Externals, analysePsfBeads ext2 ds =
        analysePsfBeads ext ds) ∧
      (analysePsfBeads ext ds).outputData = none ∧
      (analysePsfBeads ext ds).processedFlag = false ∧
      (∀ img ∈ ds.input.psf_beads_images, ∀ c : ℕ,
        c ∈ saturatedChannelsOf ds.input.saturation_threshold
            ds.input.bit_depth img ↔
          c < nrChannelsOf img ∧
            isSaturated (channelAllPixels img c)
              ds.input.saturation_threshold ds.input.bit_depth = true) := by
  have hprep := preparePhase_eq_of_wellformed ds.input.saturation_threshold
    ds.input.bit_depth ds.input.psf_beads_images [] h5 (by simp) hnames
  have hany : ((ds.input.psf_beads_images.map (fun img =>
      (img.name, saturatedChannelsOf ds.input.saturation_threshold
        ds.input.bit_depth img))).any (fun e => e.2.length ≠ 0)) = true := by
    rw [List.any_eq_true]
    obtain ⟨img, hmem, hne⟩ := hsat
    exact ⟨(img.name, saturatedChannelsOf ds.input.saturation_threshold
      ds.input.bit_depth img), List.mem_map_of_mem _ hmem, by simpa using hne⟩
  have key : ∀ e : Externals, analysePsfBeads e ds = .raisedSaturation
      (ds.input.psf_beads_images.map (fun img =>
        (img.name, saturatedChannelsOf ds.input.saturation_threshold
          ds.input.bit_depth img))) := by
    intro e
    simp only [analysePsfBeads, hprep, List.nil_append]
    rw [if_pos hany]
  refine ⟨key ext, fun ext2 => (key ext2).trans (key ext).symm,
    by rw [key ext]; rfl, by rw [key ext]; rfl, ?_⟩
  intro img _hmem c
  simp [saturatedChannelsOf, List.mem_filter, List.mem_range]

/-- Witness for `saturation_raises_for_wellformed_datasets` at
`exDatasetSaturated`. -/
theorem saturation_raises_for_wellformed_datasets_witness :
    ((∀ img ∈ exDatasetSaturated.input.psf_beads_images,
        img.shape.length = 5) ∧
      (exDatasetSaturated.input.psf_beads_images.map
        (fun i => i.name)).Nodup ∧
      (∃ img ∈ exDatasetSaturated.input.psf_beads_images,
        saturatedChannelsOf exDatasetSaturated.input.saturation_threshold
          exDatasetSaturated.input.bit_depth img ≠ [])) ∧
    (analysePsfBeads exExternals exDatasetSaturated = .raisedSaturation
        (exDatasetSaturated.input.psf_beads_images.map (fun img =>
          (img.name, saturatedChannelsOf
            exDatasetSaturated.input.saturation_threshold
            exDatasetSaturated.input.bit_depth img))) ∧
      (∀ ext2 : Externals, analysePsfBeads ext2 exDatasetSaturated =
        analysePsfBeads exExternals exDatasetSaturated) ∧
      (analysePsfBeads exExternals exDatasetSaturated).outputData = none ∧
      (analysePsfBeads exExternals
        exDatasetSaturated).processedFlag = false ∧
      (∀ img ∈ exDatasetSaturated.input.psf_beads_images, ∀ c : ℕ,
        c ∈ saturatedChannelsOf
            exDatasetSaturated.input.saturation_threshold
            exDatasetSaturated.input.bit_depth img ↔
          c < nrChannelsOf img ∧
            isSaturated (channelAllPixels img c)
              exDatasetSaturated.input.saturation_threshold
              exDatasetSaturated.input.bit_depth = true)) :=
  ⟨⟨by decide, by decide, by decide⟩,
    saturation_raises_for_wellformed_datasets exExternals
      exDatasetSaturated (by decide) (by decide) (by decide)⟩

/-! ## Claim C8 -/

lemma except_error_bind {α β : Type} (e : String)
    (f : α → Except String β) : (Except.error e >>= f) = Except.error e :=
  rfl

lemma except_ok_bind {α β : Type} (a : α) (f : α → Except String β) :
    (Except.ok a >>= f) = f a :=
  rfl

/-- `mapM` over `Except` fails whenever `f` fails on some element. -/
lemma mapM_except_error {α β : Type} (f : α → Except String β) (l : List α)
    (h : ∃ x ∈ l, ∃ msg, f x = .error msg) :
    ∃ msg, l.mapM f = .error msg := by
  induction l with
  | nil =>
    obtain ⟨x, hx, _⟩ := h
    simp at hx
  | cons a t ih =>
    rw [List.mapM_cons]
    rcases ha : f a with e | b
    · exact ⟨e, rfl⟩
    · obtain ⟨x, hx, msg, herr⟩ := h
      rcases List.mem_cons.mp hx with rfl | hmem
      · rw [ha] at herr
        exact absurd herr (by simp)
      · obtain ⟨m2, hm2⟩ := ih ⟨x, hmem, msg, herr⟩
        refine ⟨m2, ?_⟩
        rw [except_ok_bind, hm2]
        rfl

/-- `_process_bead` fails when the fitter fails on any of the three axis
profiles of the bead. -/
lemma processBead_error (fit : List ℚ → Except String FitResult)
    (bead : Volume) (voxel : Option ℚ × Option ℚ × Option ℚ)
    (h : ∃ prof ∈ [zProfileOf bead, yProfileOf bead, xProfileOf bead],
      ∃ msg, fit prof = .error msg) :
    ∃ msg, processBead fit bead voxel = .error msg := by
  simp only [processBead]
  rcases hz : fit (zProfileOf bead) with e | vz
  · exact ⟨e, rfl⟩
  · rcases hy : fit (yProfileOf bead) with e | vy
    · exact ⟨e, rfl⟩
    · rcases hx : fit (xProfileOf bead) with e | vx
      · exact ⟨e, rfl⟩
      · exfalso
        obtain ⟨prof, hmem, msg, herr⟩ := h
        simp only [List.mem_cons, List.not_mem_nil, or_false] at hmem
        rcases hmem with rfl | rfl | rfl
        · rw [hz] at herr
          exact Except.noConfusion herr
        · rw [hy] at herr
          exact Except.noConfusion herr
        · rw [hx] at herr
          exact Except.noConfusion herr

/-- `_process_channel` re-raises a bead-level `FittingError`. -/
lemma processChannel_error (ext : Externals) (channel : Volume)
    (sigma : ℚ × ℚ × ℚ) (mbd : ℚ)
    (voxel : Option ℚ × Option ℚ × Option ℚ)
    (h : ∃ bead ∈ (findBeads ext channel sigma mbd).bead_images,
      ∃ msg, processBead ext.fit_airy bead voxel = .error msg) :
    ∃ msg, processChannel ext channel sigma mbd voxel = .error msg := by
  obtain ⟨msg, hm⟩ := mapM_except_error
    (fun bead => processBead ext.fit_airy bead voxel) _ h
  refine ⟨msg, ?_⟩
  simp only [processChannel]
  rw [hm]
  rfl

/-- `_process_image` propagates a channel-level `FittingError`. -/
lemma processImage_error (ext : Externals) (img : MMImage)
    (sigma : ℚ × ℚ × ℚ) (mbd : ℚ)
    (h : ∃ ch ∈ List.range (nrChannelsOf img),
      ∃ msg, processChannel ext (npClip0 (channelVolume img ch)) sigma mbd
        (img.voxel_size_z_micron, img.voxel_size_y_micron,
          img.voxel_size_x_micron) = .error msg) :
    ∃ msg, processImage ext img sigma mbd = .error msg := by
  obtain ⟨msg, hm⟩ := mapM_except_error _ _ h
  refine ⟨msg, ?_⟩
  simp only [processImage]
  rw [hm]
  rfl

lemma except_map_error {α β : Type} (e : String) (f : α → β) :
    (Except.error e : Except String α).map f = Except.error e :=
  rfl

/-- Claim C8: if, during the main processing loop of a well-formed and
unsaturated dataset, the curve fitter fails on any axis profile of any
bead crop of any channel of any image, the `FittingError` is re-raised and
propagates out of `analyse_psf_beads`: the run ends with the raised error,
no output is attached and the dataset is not marked processed. -/
theorem fitting_error_aborts_run (ext : Externals) (ds : PSFBeadsDataset)
    (h5 : ∀ img ∈ ds.input.psf_beads_images, img.shape.length = 5)
    (hnames : (ds.input.psf_beads_images.map (fun i => i.name)).Nodup)
    (hnosat : ∀ img ∈ ds.input.psf_beads_images,
      saturatedChannelsOf ds.input.saturation_threshold ds.input.bit_depth
        img = [])
    (herr : ∃ img ∈ ds.input.psf_beads_images,
      ∃ ch ∈ List.range (nrChannelsOf img),
      ∃ bead ∈ (findBeads ext (npClip0 (channelVolume img ch))
          (ds.input.sigma_z, ds.input.sigma_y, ds.input.sigma_x)
          ds.input.min_lateral_distance_factor).bead_images,
      ∃ prof ∈ [zProfileOf bead, yProfileOf bead, xProfileOf bead],
      ∃ msg, ext.fit_airy prof = .error msg) :
    (∃ msg, analysePsfBeads ext ds = .raisedFitting msg) ∧
      (analysePsfBeads ext ds).outputData = none ∧
      (analysePsfBeads ext ds).processedFlag = false := by
  have hprep := preparePhase_eq_of_wellformed ds.input.saturation_threshold
    ds.input.bit_depth ds.input.psf_beads_images [] h5 (by simp) hnames
  have hnone : ¬ (((ds.input.psf_beads_images.map (fun img =>
      (img.name, saturatedChannelsOf ds.input.saturation_threshold
        ds.input.bit_depth img))).any (fun e => e.2.length ≠ 0)) = true) := by
    rw [List.any_eq_true]
    rintro ⟨e, he, hlen⟩
    rw [List.mem_map] at he
    obtain ⟨img, hmem, rfl⟩ := he
    rw [hnosat img hmem] at hlen
    simp at hlen
  have himg : ∃ img ∈ ds.input.psf_beads_images, ∃ msg,
      (processImage ext img
        (ds.input.sigma_z, ds.input.sigma_y, ds.input.sigma_x)
        ds.input.min_lateral_distance_factor).map
          (fun io => (img.name, io)) = .error msg := by
    obtain ⟨img, hmem, hch⟩ := herr
    have hchErr : ∃ ch ∈ List.range (nrChannelsOf img), ∃ msg,
        processChannel ext (npClip0 (channelVolume img ch))
          (ds.input.sigma_z, ds.input.sigma_y, ds.input.sigma_x)
          ds.input.min_lateral_distance_factor
          (img.voxel_size_z_micron, img.voxel_size_y_micron,
            img.voxel_size_x_micron) = .error msg := by
      obtain ⟨ch, hchmem, hbead⟩ := hch
      exact ⟨ch, hchmem, processChannel_error ext _ _ _ _
        (by
          obtain ⟨bead, hbmem, hprof⟩ := hbead
          exact ⟨bead, hbmem, processBead_error ext.fit_airy bead _ hprof⟩)⟩
    obtain ⟨msg, hm⟩ := processImage_error ext img _ _ hchErr
    exact ⟨img, hmem, msg, by rw [hm, except_map_error]⟩
  obtain ⟨msg, hmapM⟩ := mapM_except_error _ ds.input.psf_beads_images himg
  have key : analysePsfBeads ext ds = .raisedFitting msg := by
    simp only [analysePsfBeads, hprep, List.nil_append]
    rw [if_neg hnone]
    rw [show estimateMinBeadDistance ds =
      ds.input.min_lateral_distance_factor from rfl, hmapM]
  exact ⟨⟨msg, key⟩, by rw [key]; rfl, by rw [key]; rfl⟩

/-- Witness for `fitting_error_aborts_run` at `exDatasetGood` with the
always-failing fit oracle of `exExternals`. -/
theorem fitting_error_aborts_run_witness :
    ((∀ img ∈ exDatasetGood.input.psf_beads_images, img.shape.length = 5) ∧
      (exDatasetGood.input.psf_beads_images.map (fun i => i.name)).Nodup ∧
      (∀ img ∈ exDatasetGood.input.psf_beads_images,
        saturatedChannelsOf exDatasetGood.input.saturation_threshold
          exDatasetGood.input.bit_depth img = []) ∧
      (∃ img ∈ exDatasetGood.input.psf_beads_images,
        ∃ ch ∈ List.range (nrChannelsOf img),
        ∃ bead ∈ (findBeads exExternals (npClip0 (channelVolume img ch))
            (exDatasetGood.input.sigma_z, exDatasetGood.input.sigma_y,
              exDatasetGood.input.sigma_x)
            exDatasetGood.input.min_lateral_distance_factor).bead_images,
        ∃ prof ∈ [zProfileOf bead, yProfileOf bead, xProfileOf bead],
        ∃ msg, exExternals.fit_airy prof = .error msg)) ∧
    ((∃ msg, analysePsfBeads exExternals exDatasetGood =
        .raisedFitting msg) ∧
      (analysePsfBeads exExternals exDatasetGood).outputData = none ∧
      (analysePsfBeads exExternals exDatasetGood).processedFlag = false) :=
  ⟨⟨by decide, by decide, by decide,
    ⟨exImageGood, List.mem_singleton.mpr rfl, 0, by decide, exBeadW,
      by decide, zProfileOf exBeadW, List.mem_cons_self _ _,
      "unused", rfl⟩⟩,
    fitting_error_aborts_run exExternals exDatasetGood (by decide)
      (by decide) (by decide)
      ⟨exImageGood, List.mem_singleton.mpr rfl, 0, by decide, exBeadW,
        by decide, zProfileOf exBeadW, List.mem_cons_self _ _,
        "unused", rfl⟩⟩

end PsfBeads
